import Mathlib

/-!
Verification of the foodgram backend (recipe sharing service):
shopping-cart aggregation and PDF export (`api/views.py`,
`RecipeViewSet.download_cart`), cart/favorite membership toggles
(`RecipeViewSet.add_to` / `RecipeViewSet.delete_from`), recipe request
validation (`api/serializers.py`, `RecipeSerializer.validate`,
`RecipeSerializer.validate_tags`, `AddIngredientSerializer`), and the
stored-amount constraint (`recipes/models.py`, `IngredientAmount.amount`).

Stored ingredient amounts are Django `DecimalField(max_digits=6,
decimal_places=2)` values: exact decimals with two fractional digits.  We
embed a stored amount as an `Int` counting hundredths (so the decimal
2.50 is the integer 250); `Decimal` addition on scale-2 values is exactly
integer addition on hundredths.  Request-payload amounts, before field
coercion, are arbitrary decimal numbers and are embedded as `ℚ`.
-/

namespace Foodgram

/-! ### Cart line items

One row of the `download_cart` queryset
`IngredientAmount.objects.filter(recipe__carts__user=...).values_list(
"ingredient__name", "ingredient__unit", "amount")`. -/

structure CartLine where
  name : String
  unit : String
  amount : Int
deriving DecidableEq, Repr

/-- One entry of the `final_list` dict built by `download_cart`:
`final_list[name] = {"unit": ..., "amount": ...}`, keyed by ingredient
name. -/
structure ListEntry where
  name : String
  unit : String
  amount : Int
deriving DecidableEq, Repr

/-- Python membership test `name in final_list` on the dict, with the dict
embedded as a list of entries in insertion order. -/
def hasName (acc : List ListEntry) (n : String) : Bool :=
  acc.any (fun e => e.name = n)

/-- One iteration of the `for item in ingredients` loop of `download_cart`:
if the name is not yet a key, a new dict entry (appended at the end, which
is Python dict insertion-order semantics) records the unit and amount of
this first occurrence; otherwise only the amount of the existing entry is
increased. -/
def final_list_step (acc : List ListEntry) (item : CartLine) : List ListEntry :=
  if !hasName acc item.name then
    acc ++ [⟨item.name, item.unit, item.amount⟩]
  else
    acc.map (fun e =>
      if e.name = item.name then { e with amount := e.amount + item.amount } else e)

/-- The aggregation step of `RecipeViewSet.download_cart`: fold the flattened
cart lines into the `final_list` dict, starting from the empty dict. -/
def final_list (ingredients : List CartLine) : List ListEntry :=
  ingredients.foldl final_list_step []

/-- Sum of the amounts of all cart lines carrying a given ingredient name. -/
def sum_amounts (lines : List CartLine) (n : String) : Int :=
  ((lines.filter (fun l => l.name = n)).map (fun l => l.amount)).sum

/-- Specification-side aggregation, following the words of the spec: group
the lines by ingredient name only, in the order names are first
encountered; each group keeps the unit of the first occurrence and sums the
amounts of all occurrences.  To be compared with `final_list`, which is
translated from the code. -/
def aggregate_spec : List CartLine → List ListEntry
  | [] => []
  | l :: ls =>
      ⟨l.name, l.unit, l.amount + sum_amounts ls l.name⟩ ::
        aggregate_spec (ls.filter (fun m => ¬ (m.name = l.name)))
termination_by ls => ls.length
decreasing_by
  simp only [List.length_cons]
  exact Nat.lt_succ_of_le (List.length_filter_le _ _)

/-! ### PDF rendering (`download_cart`, lines 105-121 of `api/views.py`) -/

/-- A `drawString(x, y, text)` call on the reportlab canvas. -/
structure DrawOp where
  x : Int
  y : Int
  text : String
deriving DecidableEq, Repr

/-- The rendered document: the sequence of draw calls and the number of
pages (`showPage()` calls). -/
structure PdfDoc where
  ops : List DrawOp
  pages : Nat
deriving DecidableEq, Repr

/-- Python `str` of a scale-2 `Decimal` held as a count of hundredths:
the integer part, a dot, and exactly two fractional digits. -/
def fmt_amount (n : Int) : String :=
  let s := if n < 0 then "-" else ""
  let a := n.natAbs
  let f := a % 100
  s ++ toString (a / 100) ++ "." ++ (if f < 10 then "0" else "") ++ toString f

/-- The text drawn for one aggregated ingredient: the f-string
`{i}. {name} - {amount} {unit}` with a 1-based index `i`. -/
def render_line_text (i : Nat) (e : ListEntry) : String :=
  toString i ++ ". " ++ e.name ++ " - " ++ fmt_amount e.amount ++ " " ++ e.unit

/-- The `for i, (name, data) in enumerate(final_list.items(), 1)` loop:
each entry is drawn at x = 75, the running height starts at 750 and
decreases by 25 per line; no page break is ever issued inside the loop. -/
def render_lines : List ListEntry → Nat → Int → List DrawOp
  | [], _, _ => []
  | e :: rest, i, height =>
      ⟨75, height, render_line_text i e⟩ :: render_lines rest (i + 1) (height - 25)

/-- The whole `download_cart` document: the title drawn at (200, 800), then
the aggregated entries from height 750 downward, and a single `showPage()`
call. -/
def download_cart (lines : List CartLine) : PdfDoc :=
  { ops := ⟨200, 800, "Список покупок"⟩ :: render_lines (final_list lines) 1 750
    pages := 1 }

/-! ### Cart/favorite membership (`add_to` / `delete_from`) -/

/-- The attributes of `recipes.models.Recipe` used by the membership
endpoints.  The cooking-time model field is named `time`. -/
structure Recipe where
  id : Nat
  name : String
  image : String
  time : Nat
deriving DecidableEq, Repr

/-- The shape of the compact summary that `ShortRecipeSerializer` declares:
`Meta.fields = (id, name, image, cooking_time)`.  No value of this shape is
ever produced, see `ShortRecipeSerializer_data`. -/
structure ShortRecipe where
  id : Nat
  name : String
  image : String
  cooking_time : Nat
deriving DecidableEq, Repr

/-- Accessing `ShortRecipeSerializer(recipe).data`: the framework builds the
declared fields lazily at this point, and `Meta.fields` names
`cooking_time`, which is neither a model field nor an attribute of the
`Recipe` model (the model field is named `time`).  `ModelSerializer`
therefore raises `ImproperlyConfigured` while building the fields, on every
instance, and no summary is ever returned. -/
def ShortRecipeSerializer_data (_ : Recipe) : Option ShortRecipe := none

/-- Outcome of `RecipeViewSet.add_to`. -/
inductive AddToResult where
  /-- `Response(serializer.data, status=HTTP_201_CREATED)` with the compact
  summary (never produced, see `ShortRecipeSerializer_data`) -/
  | created (summary : ShortRecipe)
  /-- `get_object_or_404` raised `Http404` -/
  | notFound
  /-- `model.objects.create` violated the `unique_cart` / `unique_favorite`
  constraint and raised the store-level `IntegrityError`; `add_to` has no
  handler for it, so it propagates as a raw storage error -/
  | integrityError
  /-- `serializer.data` raised `ImproperlyConfigured` while building the
  `ShortRecipeSerializer` fields — after the membership row was inserted -/
  | improperlyConfigured
  /-- a structured Conflict response (never produced by `add_to`) -/
  | conflict
deriving DecidableEq, Repr

/-- `RecipeViewSet.add_to(model, user, pk)` with the membership table
embedded as the list of (user id, recipe id) pairs: fetch the recipe or
404, then `model.objects.create(user=user, recipe=recipe)` which appends a
row or raises `IntegrityError` if the unique (user, recipe) constraint is
violated, then `ShortRecipeSerializer(recipe)` and the access to
`serializer.data` — which raises `ImproperlyConfigured` (the row stays
inserted; there is no transaction wrapper in `add_to`). -/
def add_to (recipes : List Recipe) (pairs : List (Nat × Nat)) (user pk : Nat) :
    List (Nat × Nat) × AddToResult :=
  match recipes.find? (fun r => r.id = pk) with
  | none => (pairs, .notFound)
  | some recipe =>
      if (user, pk) ∈ pairs then
        (pairs, .integrityError)
      else
        match ShortRecipeSerializer_data recipe with
        | none => (pairs ++ [(user, pk)], .improperlyConfigured)
        | some s => (pairs ++ [(user, pk)], .created s)

/-- `RecipeViewSet.delete_from(model, user, pk)`:
`model.objects.filter(user=user, recipe__id=pk)` then `.delete()` on the
queryset (deleting zero rows is fine), then an unconditional
`Response(status=HTTP_204_NO_CONTENT)`.  There is no recipe-existence
check. -/
def delete_from (pairs : List (Nat × Nat)) (user pk : Nat) :
    List (Nat × Nat) × Nat :=
  (pairs.filter (fun p => ¬ (p.1 = user ∧ p.2 = pk)), 204)

/-! ### Recipe request validation (`api/serializers.py`) -/

/-- An ingredient line of the raw create/update payload: the target
ingredient id and the amount as sent, an arbitrary decimal number. -/
structure RawIngredient where
  id : Nat
  amount : ℚ
deriving DecidableEq, Repr

/-- An ingredient line after `AddIngredientSerializer` field validation:
the `amount` field is declared `serializers.IntegerField()`, so the
validated value is an integer. -/
structure AddIngredient where
  id : Nat
  amount : Int
deriving DecidableEq, Repr

/-- The validated-data dict passed to `RecipeSerializer.validate`.  Its
keys are the writable serializer fields of `RecipeSerializer.Meta.fields`:
name, image, text, ingredients, tags, time. -/
structure RecipeData where
  name : String
  text : String
  image : String
  ingredients : List AddIngredient
  tags : List Nat
  time : Nat
deriving DecidableEq, Repr

/-- A raw recipe create/update request, before field validation. -/
structure RawRecipeRequest where
  name : String
  text : String
  image : String
  ingredients : List RawIngredient
  tags : List Nat
  time : Nat
deriving DecidableEq, Repr

/-- Outcome of running a Python validation routine: a value, a
field-keyed `ValidationError`, or an uncaught exception (`TypeError` or
`AttributeError`). -/
inductive PyResult (α : Type) where
  | ok (a : α)
  | validationError (field : String) (msg : String)
  | typeError
  | attributeError
deriving DecidableEq, Repr

/-- DRF `IntegerField.to_internal_value` on a numeric payload: the string
form is stripped of a trailing run of `.0` digits and parsed with `int`,
so exactly the integral numbers are accepted; any other value fails field
validation with "A valid integer is required.".  This is the declared type
of `AddIngredientSerializer.amount`. -/
def IntegerField_to_internal_value (q : ℚ) : PyResult Int :=
  if q.den = 1 then .ok q.num
  else .validationError "amount" "A valid integer is required."

/-- Field validation of the `ingredients` payload list through
`AddIngredientSerializer(many=True)`: every amount must pass
`IntegerField.to_internal_value`. -/
def run_ingredient_fields : List RawIngredient → PyResult (List AddIngredient)
  | [] => .ok []
  | r :: rest =>
      match IntegerField_to_internal_value r.amount with
      | .validationError f m => .validationError f m
      | .typeError => .typeError
      | .attributeError => .attributeError
      | .ok a =>
          match run_ingredient_fields rest with
          | .ok l => .ok (⟨r.id, a⟩ :: l)
          | .validationError f m => .validationError f m
          | .typeError => .typeError
          | .attributeError => .attributeError

/-- The `for ingredient in ingredients` loop of `RecipeSerializer.validate`:
a repeated id raises a `ValidationError` keyed `ingredients`; then the id
is appended to `ingredients_list`; then an amount below 0.01 raises a
`ValidationError` keyed `amount`.  (The amounts are integers here, field
validation having already run; Python compares them to the float 0.01,
which for integers is exactly the comparison with 1/100.) -/
def check_ingredients : List AddIngredient → List Nat → Option (String × String)
  | [], _ => none
  | ing :: rest, seen =>
      if ing.id ∈ seen then
        some ("ingredients", "Ингредиенты не должны повторяться.")
      else if (ing.amount : ℚ) < 1 / 100 then
        some ("amount", "Минимальное значение — 0.01.")
      else
        check_ingredients rest (seen ++ [ing.id])

/-- Python dict access `data.get("cooking_time")` on the validated-data
dict: the serializer fields (and the model field) are named `time`; no
field is named `cooking_time`, so the key is absent and `.get` returns
`None`. -/
def RecipeData.get_cooking_time (_ : RecipeData) : Option Nat := none

/-- `RecipeSerializer.validate` (lines 102-127 of `api/serializers.py`):
empty ingredient list, then the per-ingredient loop, then
`cooking_time = data.get("cooking_time")` followed by
`if cooking_time < 1`.  Since the key `cooking_time` is absent from the
dict, that comparison is `None < 1`, which raises `TypeError` in Python 3. -/
def RecipeSerializer_validate (data : RecipeData) : PyResult RecipeData :=
  if data.ingredients.length = 0 then
    .validationError "ingredients" "Минимум 1 ингредиент."
  else
    match check_ingredients data.ingredients [] with
    | some (f, m) => .validationError f m
    | none =>
        match data.get_cooking_time with
        | none => .typeError
        | some t =>
            if t < 1 then .validationError "cooking_time" "Минимальное значение — 1."
            else .ok data

/-- `RecipeSerializer.validate_tags` as the framework invokes it: its name
makes it the field-level hook for the declared `tags` field, so DRF calls
it with the validated value of that field — a list of tags.  Its body
begins `tags = data.get("tags")`, and a Python list has no attribute
`get`, so every call raises an uncaught `AttributeError` before the
emptiness check or the duplicate loop written below that line can run. -/
def RecipeSerializer_validate_tags (_tags : List Nat) : PyResult Unit :=
  .attributeError

/-- `Serializer.to_internal_value` on a recipe create/update request,
fields in `Meta.fields` order.  Each field's `ValidationError` is
collected into a per-field error dict that is raised together only at the
end, but any other exception propagates at once.  The `ingredients` field
result (value or collected error) comes first; then the `tags` field runs
the `validate_tags` hook, whose `AttributeError` is not a
`ValidationError` and so aborts the request immediately: the collected
field errors are discarded and the object-level `validate` is never
reached.  The arms below the hook call model what the framework would do
if the hook returned: raise the collected field errors, then run
`RecipeSerializer.validate` on the validated-data dict. -/
def run_validation (req : RawRecipeRequest) : PyResult RecipeData :=
  let ing := run_ingredient_fields req.ingredients
  match RecipeSerializer_validate_tags req.tags with
  | .attributeError => .attributeError
  | _ =>
      match ing with
      | .validationError f m => .validationError f m
      | .typeError => .typeError
      | .attributeError => .attributeError
      | .ok ings =>
          RecipeSerializer_validate
            ⟨req.name, req.text, req.image, ings, req.tags, req.time⟩

/-! ### Stored amount constraint (`recipes/models.py`) -/

/-- `IngredientAmount.amount = DecimalField(max_digits=6, decimal_places=2)`:
Django validates that a stored value has at most 2 fractional digits and
at most 6 digits in total, i.e. it is an integer count of hundredths whose
absolute count does not exceed 999999. -/
def decimal_field_6_2_ok (q : ℚ) : Prop :=
  (q * 100).den = 1 ∧ (q * 100).num.natAbs ≤ 999999

/-! ### Lemmas about the aggregation step -/

@[simp]
lemma hasName_nil (n : String) : hasName [] n = false := rfl

lemma hasName_append (l₁ l₂ : List ListEntry) (n : String) :
    hasName (l₁ ++ l₂) n = (hasName l₁ n || hasName l₂ n) := by
  simp [hasName, List.any_append]

lemma hasName_update (acc : List ListEntry) (x : CartLine) (n : String) :
    hasName (acc.map (fun e =>
      if e.name = x.name then { e with amount := e.amount + x.amount } else e)) n =
      hasName acc n := by
  induction acc with
  | nil => rfl
  | cons e rest ih =>
      by_cases he : e.name = x.name <;>
        simp [hasName, List.any_cons, he] at ih ⊢ <;> simp [ih]

lemma hasName_false_mem {acc : List ListEntry} {n : String}
    (h : hasName acc n = false) : ∀ e ∈ acc, ¬ e.name = n := by
  simpa [hasName, List.any_eq_false] using h

lemma sum_amounts_cons (x : CartLine) (xs : List CartLine) (n : String) :
    sum_amounts (x :: xs) n =
      (if x.name = n then x.amount else 0) + sum_amounts xs n := by
  by_cases h : x.name = n <;> simp [sum_amounts, List.filter_cons, h]

lemma sum_amounts_filter (xs : List CartLine) (p : CartLine → Bool) (n : String)
    (h : ∀ l : CartLine, l.name = n → p l = true) :
    sum_amounts (xs.filter p) n = sum_amounts xs n := by
  induction xs with
  | nil => rfl
  | cons x rest ih =>
      by_cases hx : x.name = n
      · have hp : p x = true := h x hx
        simp [List.filter_cons, hp, sum_amounts_cons, hx, ih]
      · cases hp : p x <;>
          simp [List.filter_cons, hp, sum_amounts_cons, hx, ih]

lemma find?_filter (xs : List CartLine) (p q : CartLine → Bool)
    (h : ∀ a, q a = true → p a = true) :
    (xs.filter p).find? q = xs.find? q := by
  induction xs with
  | nil => rfl
  | cons x rest ih =>
      cases hq : q x
      · cases hp : p x <;> simp [List.filter_cons, hp, List.find?_cons, hq, ih]
      · have hp : p x = true := h x hq
        simp [List.filter_cons, hp, List.find?_cons, hq]

/-- Closed form of the `final_list` fold from an arbitrary dict state:
existing entries get the sums of the matching remaining lines added, and
the lines whose names are not yet keys are aggregated after them. -/
lemma foldl_final_list_step : ∀ (lines : List CartLine) (acc : List ListEntry),
    List.foldl final_list_step acc lines =
      acc.map (fun e => { e with amount := e.amount + sum_amounts lines e.name }) ++
        aggregate_spec (lines.filter (fun l => !hasName acc l.name))
  | [], acc => by
      have h : (fun e : ListEntry =>
          { e with amount := e.amount + sum_amounts [] e.name }) = fun e => e := by
        funext e; cases e; simp [sum_amounts]
      simp [aggregate_spec, h]
  | x :: xs, acc => by
      rw [List.foldl_cons, foldl_final_list_step xs (final_list_step acc x)]
      cases hx : hasName acc x.name
      case false =>
        have hstep : final_list_step acc x = acc ++ [⟨x.name, x.unit, x.amount⟩] := by
          simp [final_list_step, hx]
        have hmem : ∀ e ∈ acc, ¬ e.name = x.name := hasName_false_mem hx
        rw [hstep]
        simp only [hasName_append, List.map_append]
        have hone : ∀ m : String,
            hasName [(⟨x.name, x.unit, x.amount⟩ : ListEntry)] m =
              decide (x.name = m) := by
          intro m; simp [hasName]
        simp only [hone]
        have hfilters :
            xs.filter (fun l => !(hasName acc l.name || decide (x.name = l.name))) =
              (xs.filter (fun l => !hasName acc l.name)).filter
                (fun m => ¬ (m.name = x.name)) := by
          rw [List.filter_filter]
          apply List.filter_congr
          intro a _
          have hxa : (x.name = a.name) ↔ (a.name = x.name) := eq_comm
          by_cases ha : a.name = x.name <;>
            cases hb : hasName acc a.name <;> simp [ha, hb, hxa]
        rw [hfilters]
        have hpcons : (x :: xs).filter (fun l => !hasName acc l.name) =
            x :: xs.filter (fun l => !hasName acc l.name) := by
          simp [List.filter_cons, hx]
        rw [hpcons]
        have hspec : aggregate_spec (x :: xs.filter (fun l => !hasName acc l.name)) =
            ⟨x.name, x.unit,
              x.amount + sum_amounts (xs.filter (fun l => !hasName acc l.name)) x.name⟩ ::
              aggregate_spec ((xs.filter (fun l => !hasName acc l.name)).filter
                (fun m => ¬ (m.name = x.name))) := by
          simp [aggregate_spec]
        rw [hspec]
        have hsum : sum_amounts (xs.filter (fun l => !hasName acc l.name)) x.name =
            sum_amounts xs x.name := by
          apply sum_amounts_filter
          intro l hl
          rw [hl, hx]
          rfl
        rw [hsum]
        have hmap : acc.map
            (fun e => { e with amount := e.amount + sum_amounts xs e.name }) =
            acc.map
              (fun e => { e with amount := e.amount + sum_amounts (x :: xs) e.name }) := by
          apply List.map_congr_left
          intro e he
          have hne : ¬ (x.name = e.name) := fun h => hmem e he h.symm
          simp [sum_amounts_cons, hne]
        rw [hmap]
        simp [List.append_assoc]
      case true =>
        have hstep : final_list_step acc x = acc.map (fun e =>
            if e.name = x.name then { e with amount := e.amount + x.amount } else e) := by
          simp [final_list_step, hx]
        rw [hstep]
        simp only [hasName_update]
        have hpcons : (x :: xs).filter (fun l => !hasName acc l.name) =
            xs.filter (fun l => !hasName acc l.name) := by
          simp [List.filter_cons, hx]
        rw [hpcons, List.map_map]
        have hfun : ((fun e : ListEntry =>
              { e with amount := e.amount + sum_amounts xs e.name }) ∘
            (fun e : ListEntry =>
              if e.name = x.name then { e with amount := e.amount + x.amount } else e)) =
            fun e : ListEntry =>
              { e with amount := e.amount + sum_amounts (x :: xs) e.name } := by
          funext e
          by_cases he : e.name = x.name
          · simp [Function.comp, he, sum_amounts_cons, add_assoc]
          · have hne : ¬ (x.name = e.name) := fun h => he h.symm
            simp [Function.comp, he, sum_amounts_cons, hne]
        rw [hfun]

/-- The aggregation step of `download_cart` computes exactly the
specification-side aggregation. -/
lemma final_list_eq_aggregate_spec (lines : List CartLine) :
    final_list lines = aggregate_spec lines := by
  rw [final_list, foldl_final_list_step]
  simp

/-- The entries of the specification-side aggregation carrying a given
name: exactly one when the name occurs among the lines (with the unit of
the first occurrence and the summed amount), none otherwise. -/
lemma aggregate_spec_filter_name : ∀ (lines : List CartLine) (n : String),
    (aggregate_spec lines).filter (fun e => e.name = n) =
      match lines.find? (fun l => l.name = n) with
      | none => []
      | some l => [⟨n, l.unit, sum_amounts lines n⟩]
  | [], n => by simp [aggregate_spec]
  | l :: ls, n => by
      have hspec : aggregate_spec (l :: ls) =
          ⟨l.name, l.unit, l.amount + sum_amounts ls l.name⟩ ::
            aggregate_spec (ls.filter (fun m => ¬ (m.name = l.name))) := by
        simp [aggregate_spec]
      rw [hspec]
      by_cases hn : l.name = n
      · subst hn
        have hnone : (ls.filter (fun m => ¬ (m.name = l.name))).find?
            (fun e => e.name = l.name) = none := by
          rw [List.find?_eq_none]
          intro x hx
          have := List.of_mem_filter hx
          simpa using this
        rw [List.filter_cons]
        simp only [decide_eq_true_eq]
        rw [aggregate_spec_filter_name (ls.filter (fun m => ¬ (m.name = l.name))) l.name,
          hnone]
        simp [List.find?_cons, sum_amounts_cons]
      · have hfind : (ls.filter (fun m => ¬ (m.name = l.name))).find?
            (fun e => e.name = n) = ls.find? (fun e => e.name = n) := by
          apply find?_filter
          intro a ha
          simp only [decide_eq_true_eq] at ha ⊢
          intro hcla
          exact hn (hcla ▸ ha)
        have hsum : sum_amounts (ls.filter (fun m => ¬ (m.name = l.name))) n =
            sum_amounts ls n := by
          apply sum_amounts_filter
          intro a ha
          simp only [decide_eq_true_eq]
          intro hcla
          exact hn (hcla ▸ ha)
        rw [List.filter_cons]
        simp only [decide_eq_true_eq]
        rw [if_neg hn]
        rw [aggregate_spec_filter_name (ls.filter (fun m => ¬ (m.name = l.name))) n,
          hfind, hsum]
        have hfc : (l :: ls).find? (fun e => e.name = n) =
            ls.find? (fun e => e.name = n) := by
          simp [List.find?_cons, hn]
        rw [hfc]
        cases ls.find? (fun e => e.name = n) <;> simp [sum_amounts_cons, hn]
termination_by lines _ => lines.length
decreasing_by
  all_goals
    simp only [List.length_cons]
    exact Nat.lt_succ_of_le (List.length_filter_le _ _)

/-- Closed form of the rendering loop: the entry at position k (0-based)
is drawn at x = 75 and height `h - 25 k`, numbered `i + k`. -/
lemma render_lines_eq : ∀ (l : List ListEntry) (i : Nat) (h : Int),
    render_lines l i h =
      ((List.range l.length).zip l).map
        (fun p => ⟨75, h - 25 * (p.1 : Int), render_line_text (i + p.1) p.2⟩)
  | [], _, _ => rfl
  | e :: rest, i, h => by
      rw [render_lines, render_lines_eq rest (i + 1) (h - 25)]
      rw [List.length_cons, List.range_succ_eq_map, List.zip_cons_cons, List.map_cons]
      rw [List.zip_map_left, List.map_map]
      congr 1
      · simp
      · apply List.map_congr_left
        intro p _
        cases p with
        | mk k entry =>
            simp only [Function.comp, Prod.map]
            have h1 : h - 25 - 25 * (k : Int) = h - 25 * ((k : Int) + 1) := by ring
            have h2 : i + 1 + k = i + (k + 1) := by omega
            simp [h1, h2, Nat.succ_eq_add_one]

/-! ### Lemmas about request validation -/

/-- For an integer, the Python comparison `amount < 0.01` holds exactly
when the integer is not positive. -/
lemma int_lt_hundredth (n : ℤ) : ((n : ℚ) < 1 / 100) ↔ n ≤ 0 := by
  constructor
  · intro h
    by_contra hn
    push_neg at hn
    have h1 : (1 : ℚ) ≤ (n : ℚ) := by exact_mod_cast hn
    have : (1 : ℚ) / 100 < 1 := by norm_num
    linarith
  · intro h
    have h0 : (n : ℚ) ≤ 0 := by exact_mod_cast h
    have : (0 : ℚ) < 1 / 100 := by norm_num
    linarith

/-- The ingredient duplicate check of `validate` rejects a repeated id
(unless an earlier line already failed the amount threshold, which also
raises): the loop never returns `none` on a duplicated id list. -/
lemma check_ingredients_dup : ∀ (l : List AddIngredient) (seen : List Nat),
    seen.Nodup → ¬ (seen ++ l.map (fun i => i.id)).Nodup →
    ∃ f m, check_ingredients l seen = some (f, m)
  | [], seen => by
      intro hseen hdup
      exact absurd (by simpa using hseen) hdup
  | ing :: rest, seen => by
      intro hseen hdup
      rw [check_ingredients]
      by_cases hmem : ing.id ∈ seen
      · exact ⟨_, _, by rw [if_pos hmem]⟩
      · rw [if_neg hmem]
        by_cases hamt : (ing.amount : ℚ) < 1 / 100
        · exact ⟨_, _, by rw [if_pos hamt]⟩
        · rw [if_neg hamt]
          have hseen1 : (seen ++ [ing.id]).Nodup := by
            simp [List.nodup_append, hseen, hmem]
          apply check_ingredients_dup rest (seen ++ [ing.id]) hseen1
          intro hnd
          exact hdup (by simpa [List.append_assoc] using hnd)

/-! ### Claim theorems -/

/-- C5: the shopping-list aggregation groups the flattened cart lines by
ingredient name only — occurrences of the same name are merged under one
key even with differing units, the unit kept is the first seen, amounts
are summed, and the output is ordered by first encounter of each name.
Formally: the aggregation step of `download_cart` equals the
specification-side grouping `aggregate_spec`. -/
theorem C5_group_by_name_first_seen (lines : List CartLine) :
    final_list lines = aggregate_spec lines :=
  final_list_eq_aggregate_spec lines

/-- C1: whenever the flattened cart lines contain the ingredient name
"flour" exactly twice, with amounts 2.50 and 1.75 (250 and 175
hundredths), the aggregation step of `download_cart` yields exactly one
"flour" entry, with amount exactly 4.25 (425 hundredths) — decimal
addition on scale-2 amounts is exact integer addition on hundredths. -/
theorem C1_flour_two_lines_sum (lines : List CartLine)
    (h : ((lines.filter (fun l => l.name = "flour")).map
        (fun l => l.amount)).Perm [250, 175]) :
    ∃ u, (final_list lines).filter (fun e => e.name = "flour") =
      [⟨"flour", u, 425⟩] := by
  have hsum : sum_amounts lines "flour" = 425 := by
    rw [sum_amounts, h.sum_eq]
    rfl
  have hne : lines.filter (fun l => l.name = "flour") ≠ [] := by
    intro he
    have hlen := h.length_eq
    rw [he] at hlen
    simp at hlen
  obtain ⟨a, ha⟩ : ∃ a, lines.find? (fun l => l.name = "flour") = some a := by
    cases hf : lines.find? (fun l => l.name = "flour") with
    | some a => exact ⟨a, rfl⟩
    | none =>
        rw [List.find?_eq_none] at hf
        exact absurd (List.filter_eq_nil_iff.mpr hf) hne
  rw [final_list_eq_aggregate_spec, aggregate_spec_filter_name, ha, hsum]
  exact ⟨a.unit, rfl⟩

/-- Witness for C1 at a concrete cart: two recipes contribute flour lines
2.50 and 1.75, a third line is another ingredient. -/
theorem C1_flour_two_lines_sum_witness :
    ((([⟨"flour", "g", 250⟩, ⟨"sugar", "g", 100⟩, ⟨"flour", "g", 175⟩] :
        List CartLine).filter (fun l => l.name = "flour")).map
          (fun l => l.amount)).Perm [250, 175] ∧
    ∃ u, (final_list [⟨"flour", "g", 250⟩, ⟨"sugar", "g", 100⟩,
        ⟨"flour", "g", 175⟩]).filter (fun e => e.name = "flour") =
      [⟨"flour", u, 425⟩] :=
  ⟨by decide, C1_flour_two_lines_sum _ (by decide)⟩

/-- A cart of 32 distinct single-ingredient lines, enough for the running
height 750 - 25 k to pass below the bottom of the page. -/
def c4_input : List CartLine :=
  (List.range 32).map (fun k => ⟨"ing" ++ toString k, "g", 100⟩)

/-- C4 counterexample: rendering 32 aggregated lines draws text at a
negative height — beyond the printable area — yet the document still has
exactly one page: no new page is ever started, refuting the claimed
pagination behaviour. -/
theorem C4_pagination_counterexample :
    (download_cart c4_input).pages = 1 ∧
    ((download_cart c4_input).ops.any (fun op => op.y < 0)) = true :=
  ⟨rfl, by decide⟩

/-- C4 amended: the rendering step performs no pagination.  All lines are
drawn on a single page; the aggregated entry at 0-based position k is
drawn at x = 75 and height 750 - 25 k even when that height is below the
printable area, formatted `"{i}. {name} - {amount} {unit}"` with the
1-based index i = k + 1; the title is drawn once at (200, 800). -/
theorem C4_single_page_render (lines : List CartLine) :
    (download_cart lines).pages = 1 ∧
    (download_cart lines).ops =
      ⟨200, 800, "Список покупок"⟩ ::
        ((List.range (final_list lines).length).zip (final_list lines)).map
          (fun p => ⟨75, 750 - 25 * (p.1 : Int), render_line_text (1 + p.1) p.2⟩) := by
  refine ⟨rfl, ?_⟩
  rw [download_cart]
  rw [render_lines_eq]

/-- C2: adding the same (user, recipe) pair to the cart twice.  The first
call does not return 201 with a summary: the membership row is inserted,
but accessing `ShortRecipeSerializer(recipe).data` raises
`ImproperlyConfigured` (its `Meta.fields` names `cooking_time`, absent
from the `Recipe` model).  The second call hits the unique-constraint
violation inside `model.objects.create`; `add_to` has no handler, so the
raw store `IntegrityError` propagates.  Neither call produces a
structured Conflict (the duplicate checks in
`RecipeSerializer.validate_cart` and `FavoriteSerializer.validate` are
never invoked by the view). -/
theorem C2_second_add_integrity_error :
    ShortRecipeSerializer_data ⟨1, "x", "img", 10⟩ = none ∧
    add_to [⟨1, "x", "img", 10⟩] [] 7 1 = ([(7, 1)], .improperlyConfigured) ∧
    add_to [⟨1, "x", "img", 10⟩] [(7, 1)] 7 1 = ([(7, 1)], .integrityError) ∧
    AddToResult.improperlyConfigured ≠ AddToResult.conflict ∧
    AddToResult.integrityError ≠ AddToResult.conflict := by
  refine ⟨rfl, ?_, ?_, by decide, by decide⟩
  · decide
  · decide

/-- C7: `delete_from` always answers 204 with no error; a pair that is
absent makes the call a no-op, and a present pair is removed while all
other rows are kept. -/
theorem C7_delete_idempotent (pairs : List (Nat × Nat)) (user pk : Nat) :
    (delete_from pairs user pk).2 = 204 ∧
    ((user, pk) ∉ pairs → delete_from pairs user pk = (pairs, 204)) ∧
    (user, pk) ∉ (delete_from pairs user pk).1 ∧
    (∀ q ∈ pairs, q ≠ (user, pk) → q ∈ (delete_from pairs user pk).1) := by
  refine ⟨rfl, ?_, ?_, ?_⟩
  · intro habs
    rw [delete_from]
    rw [List.filter_eq_self.mpr]
    intro q hq
    simp only [decide_eq_true_eq]
    intro ⟨h1, h2⟩
    apply habs
    have : q = (user, pk) := by
      cases q
      simp_all
    rw [← this]
    exact hq
  · simp [delete_from, List.mem_filter]
  · intro q hq hne
    rw [delete_from]
    simp only [List.mem_filter, decide_eq_true_eq]
    refine ⟨hq, ?_⟩
    intro ⟨h1, h2⟩
    apply hne
    cases q
    simp_all

/-- Witness for C7: deleting an absent pair is a 204 no-op, and deleting a
present pair keeps the other rows. -/
theorem C7_delete_idempotent_witness :
    delete_from [(1, 2)] 7 9 = ([(1, 2)], 204) ∧
    (3, 4) ∈ (delete_from [(1, 2), (3, 4)] 1 2).1 :=
  ⟨(C7_delete_idempotent [(1, 2)] 7 9).2.1 (by decide),
   (C7_delete_idempotent [(1, 2), (3, 4)] 1 2).2.2.2 (3, 4) (by decide) (by decide)⟩

/-- C9 counterexample: with recipe id 99 absent from the store, the cart
remove operation does not fail with NotFound — `delete_from` performs no
existence check and returns a 204 no-op success. -/
theorem C9_delete_missing_recipe_counterexample :
    ([(⟨1, "x", "img", 10⟩ : Recipe)].find? (fun r => r.id = 99) = none) ∧
    delete_from [(7, 1)] 7 99 = ([(7, 1)], 204) ∧ (204 : Nat) ≠ 404 := by
  refine ⟨rfl, ?_, by decide⟩
  decide

/-- C9 amended: a membership add referencing a nonexistent recipe id
fails with NotFound (`get_object_or_404`), but a membership remove
performs no existence check and returns 204 even then. -/
theorem C9_membership_missing_recipe (recipes : List Recipe)
    (pairs : List (Nat × Nat)) (user pk : Nat)
    (h : recipes.find? (fun r => r.id = pk) = none) :
    add_to recipes pairs user pk = (pairs, .notFound) ∧
    (delete_from pairs user pk).2 = 204 := by
  constructor
  · rw [add_to, h]
  · rfl

/-- Witness for C9 amended, at a store holding only recipe 1. -/
theorem C9_membership_missing_recipe_witness :
    add_to [⟨1, "x", "img", 10⟩] [(7, 1)] 7 99 = ([(7, 1)], .notFound) ∧
    (delete_from [(7, 1)] 7 99).2 = 204 :=
  C9_membership_missing_recipe [⟨1, "x", "img", 10⟩] [(7, 1)] 7 99 (by decide)

/-- C3: the serializer declares the ingredient amount as an
`IntegerField`, whose field validation rejects the payload amount 0.009
("A valid integer is required.") — but equally rejects the amount 0.01,
which the claim (and the model `DecimalField(6, 2)` together with the
0.01 threshold in `validate`) expects to be accepted; an integral amount
such as 5 is what the field accepts.  Moreover neither rejection is ever
surfaced as a field-keyed validation response: the collected field errors
are discarded when `validate_tags` raises `AttributeError`, so both full
requests crash instead. -/
theorem C3_amount_hundredth_rejected :
    run_ingredient_fields [⟨1, 9 / 1000⟩] =
      .validationError "amount" "A valid integer is required." ∧
    run_ingredient_fields [⟨1, 1 / 100⟩] =
      .validationError "amount" "A valid integer is required." ∧
    run_ingredient_fields [⟨1, 5⟩] = .ok [⟨1, 5⟩] ∧
    run_validation ⟨"r", "t", "img", [⟨1, 9 / 1000⟩], [1], 10⟩ =
      .attributeError ∧
    run_validation ⟨"r", "t", "img", [⟨1, 1 / 100⟩], [1], 10⟩ =
      .attributeError := by
  refine ⟨?_, ?_, ?_, rfl, rfl⟩
  · have hden : ((9 : ℚ) / 1000).den ≠ 1 := by norm_num
    simp [run_ingredient_fields, IntegerField_to_internal_value, hden]
  · have hden : ((1 : ℚ) / 100).den ≠ 1 := by norm_num
    simp [run_ingredient_fields, IntegerField_to_internal_value, hden]
  · rfl

/-- C6: no create/update request ever receives the claimed field-keyed
validation errors.  `validate_tags`, invoked by the framework with the
validated tags list, raises `AttributeError` on every call (its body does
`data.get("tags")` on a list), so every request carrying a tags value —
empty tags, duplicated tags, empty or duplicated ingredients alike —
crashes before the collected field errors are raised and before the
object-level `validate` can run.  The `ingredients`-keyed errors the
claim describes do sit in the (unreachable) object-level `validate`:
it would reject an empty list and duplicated ids. -/
theorem C6_field_keyed_errors :
    (∀ req : RawRecipeRequest, run_validation req = .attributeError) ∧
    (∀ tags : List Nat, RecipeSerializer_validate_tags tags = .attributeError) ∧
    (∀ f m, ∀ req : RawRecipeRequest,
      run_validation req ≠ .validationError f m) ∧
    (∀ data : RecipeData, data.ingredients = [] →
      RecipeSerializer_validate data =
        .validationError "ingredients" "Минимум 1 ингредиент.") ∧
    (∀ data : RecipeData, ¬ (data.ingredients.map (fun i => i.id)).Nodup →
      ∃ f m, RecipeSerializer_validate data = .validationError f m) := by
  refine ⟨fun req => rfl, fun tags => rfl,
    fun f m req => by simp [run_validation, RecipeSerializer_validate_tags],
    ?_, ?_⟩
  · intro data he
    simp [RecipeSerializer_validate, he]
  · intro data hdup
    have hne : data.ingredients ≠ [] := by
      intro h
      rw [h] at hdup
      simp at hdup
    obtain ⟨f, m, hfm⟩ :=
      check_ingredients_dup data.ingredients [] List.nodup_nil
        (by simpa using hdup)
    refine ⟨f, m, ?_⟩
    rw [RecipeSerializer_validate,
      if_neg (by simpa [List.length_eq_zero] using hne), hfm]

/-- Witness for C6 at concrete requests: an empty tag list crashes with
`AttributeError` (as does an empty ingredient list), and the unreachable
object-level checks would have keyed their errors to `ingredients`. -/
theorem C6_field_keyed_errors_witness :
    run_validation ⟨"r", "t", "img", [⟨1, 5⟩], [], 10⟩ = .attributeError ∧
    run_validation ⟨"r", "t", "img", [], [2, 2], 10⟩ = .attributeError ∧
    RecipeSerializer_validate ⟨"r", "t", "img", [], [1], 10⟩ =
      .validationError "ingredients" "Минимум 1 ингредиент." ∧
    (∃ f m, RecipeSerializer_validate ⟨"r", "t", "img", [⟨1, 5⟩, ⟨1, 4⟩], [1], 10⟩ =
      .validationError f m) :=
  ⟨C6_field_keyed_errors.1 ⟨"r", "t", "img", [⟨1, 5⟩], [], 10⟩,
   C6_field_keyed_errors.1 ⟨"r", "t", "img", [], [2, 2], 10⟩,
   C6_field_keyed_errors.2.2.2.1 ⟨"r", "t", "img", [], [1], 10⟩ rfl,
   C6_field_keyed_errors.2.2.2.2 ⟨"r", "t", "img", [⟨1, 5⟩, ⟨1, 4⟩], [1], 10⟩ (by decide)⟩

/-- C8: every request whose ingredient lines pass their checks makes
`RecipeSerializer.validate` raise `TypeError` — the code reads the absent
key `cooking_time` (the field is named `time`), so it always compares
`None < 1`.  No cooking-time value, below 1 or not, is ever examined. -/
theorem C8_validate_raises_typeerror (data : RecipeData)
    (hne : data.ingredients ≠ [])
    (hok : check_ingredients data.ingredients [] = none) :
    RecipeSerializer_validate data = .typeError := by
  rw [RecipeSerializer_validate,
    if_neg (by simpa [List.length_eq_zero] using hne), hok]
  rfl

/-- Witness for C8: a well-formed request (one ingredient line of amount
5, one tag, cooking time 10) crashes with `TypeError`. -/
theorem C8_validate_raises_typeerror_witness :
    ([⟨1, 5⟩] : List AddIngredient) ≠ [] ∧
    check_ingredients [⟨1, 5⟩] [] = none ∧
    RecipeSerializer_validate ⟨"r", "t", "img", [⟨1, (5 : Int)⟩], [1], 10⟩ =
      .typeError := by
  have hok : check_ingredients ([⟨1, 5⟩] : List AddIngredient) [] = none := by
    have h5 : ¬ (((5 : Int) : ℚ) < 1 / 100) := by norm_num
    simp [check_ingredients, h5]
    norm_num
  exact ⟨by decide, hok,
    C8_validate_raises_typeerror ⟨"r", "t", "img", [⟨1, 5⟩], [1], 10⟩ (by decide) hok⟩

/-- C10: a stored ingredient amount accepted by
`DecimalField(max_digits=6, decimal_places=2)` is an exact decimal with
at most two fractional digits (an integer count of hundredths) and is at
most 9999.99. -/
theorem C10_amount_bounds (q : ℚ) (h : decimal_field_6_2_ok q) :
    (∃ n : ℤ, q = (n : ℚ) / 100) ∧ q ≤ 999999 / 100 := by
  obtain ⟨hden, habs⟩ := h
  have hq : ((q * 100).num : ℚ) = q * 100 := by
    have := Rat.num_div_den (q * 100)
    rw [hden] at this
    simpa using this
  constructor
  · refine ⟨(q * 100).num, ?_⟩
    rw [hq]
    ring
  · have h1 : (q * 100).num ≤ 999999 := by
      calc (q * 100).num ≤ ((q * 100).num.natAbs : ℤ) := Int.le_natAbs
        _ ≤ 999999 := by exact_mod_cast habs
    have h2 : q * 100 ≤ 999999 := by
      rw [← hq]
      exact_mod_cast h1
    linarith

/-- Witness for C10 at the amount 4.25. -/
theorem C10_amount_bounds_witness :
    decimal_field_6_2_ok (17 / 4) ∧
    ((∃ n : ℤ, (17 / 4 : ℚ) = (n : ℚ) / 100) ∧ (17 / 4 : ℚ) ≤ 999999 / 100) := by
  have hok : decimal_field_6_2_ok (17 / 4) := by
    constructor
    · norm_num
    · norm_num
  exact ⟨hok, C10_amount_bounds (17 / 4) hok⟩

end Foodgram
